import Mathlib

/-!
Verification development for the browser-copilot core of this repository:
the Universal Element Resolver (`src/extension/src/lib/element-resolver.ts`)
and the Human Interaction Engine (`HumanInteractor` in
`src/extension/src/lib/human-interactor.ts`, shipped inside the
`messaging.ts` bundle) together with the plan-execution loop
(`executeActionPlan` in `src/extension/src/content.ts`) and the shared
automation contracts (`shared/automation.ts`).

The embedding is shallow: TypeScript objects become Lean structures,
DOM/browser primitives (element queries, bounding boxes, `document.activeElement`,
computed styles) are supplied by an explicit environment record, and every
side effect the engine performs (event dispatch, value assignment, focus,
scrolling, delays) is recorded in an explicit effect trace.  Wall-clock
durations (`durationMs`, timestamps) are not modelled; asynchronous awaits
become ordinary sequencing, which is faithful because the code runs
single-threaded with strictly ordered awaits.
-/

namespace Nebula

/-! ## JavaScript string primitives

The TypeScript code leans on `toLowerCase`, `trim`, `includes`, `split(' ')`
and truthiness tests.  We re-implement them over `List Char` so that they
reduce inside the kernel (the built-in `String.toLower`/`trim`/`splitOn` are
defined by well-founded recursion and do not).  All strings in play are
ASCII, for which `Char.toLower` agrees with JavaScript `toLowerCase`. -/

def jsToLower (s : String) : String := String.mk (s.data.map Char.toLower)

def isJsSpace (c : Char) : Bool := c = ' ' || c = '\t' || c = '\n' || c = '\r'

def jsTrim (s : String) : String :=
  String.mk (((s.data.dropWhile isJsSpace).reverse.dropWhile isJsSpace).reverse)

/-- `listStartsWith hay needle`: does `hay` begin with `needle`? -/
def listStartsWith : List Char → List Char → Bool
  | _, [] => true
  | [], _ :: _ => false
  | a :: as, b :: bs => a = b && listStartsWith as bs

/-- JavaScript `hay.includes(needle)` (substring containment). -/
def listIncludes : List Char → List Char → Bool
  | [], sub => sub.isEmpty
  | c :: rest, sub => listStartsWith (c :: rest) sub || listIncludes rest sub

def jsIncludes (s sub : String) : Bool := listIncludes s.data sub.data

/-- JavaScript `text.split(sep)` for a single-character separator:
keeps empty fragments, and splitting the empty string yields `[""]`. -/
def splitOnChar (sep : Char) : List Char → List (List Char)
  | [] => [[]]
  | c :: rest =>
    let r := splitOnChar sep rest
    if c = sep then [] :: r
    else
      match r with
      | w :: ws => (c :: w) :: ws
      | [] => [[c]]

def jsSplitSpace (s : String) : List String :=
  (splitOnChar ' ' s.data).map String.mk

/-- JavaScript `x || d` for an optional number (`0` is falsy). -/
def jsOrNat (o : Option Nat) (d : Nat) : Nat :=
  match o with
  | some n => if n = 0 then d else n
  | none => d

/-- JavaScript `x || d` for an optional string (`""` is falsy). -/
def jsOrStr (o : Option String) (d : String) : String :=
  match o with
  | some s => if s = "" then d else s
  | none => d

/-- Truthiness of an optional string (`undefined` and `""` are falsy). -/
def jsTruthy (o : Option String) : Bool :=
  match o with
  | some s => s ≠ ""
  | none => false

/-- Truthiness of an optional boolean. -/
def jsBool (o : Option Bool) : Bool := o.getD false

/-! ## Data model of the Interaction Engine

`Elem` is the engine-relevant view of a live DOM node.  `typeProp` models
the JavaScript `type` *property*: `none` when `'type' in element` is false
(e.g. a plain `div`), `some t` when the object exposes a `type` string. -/

structure Elem where
  tagName : String
  typeProp : Option String
  autocomplete : Option String
  hasValueProp : Bool
  value : String
  id : String
  hasTabindex : Bool
  hasContenteditable : Bool
deriving DecidableEq, Repr

/-- Resolver match as consumed by the engine (`ElementMatch` fields it reads). -/
structure EMatch where
  element : Elem
  reason : String
  confidence : String
deriving DecidableEq, Repr

/-- Options object passed by the engine into `ElementResolver.findElement`. -/
structure ResolveOpts where
  typeHint : Option String := none
  timeout : Option Nat := none
deriving DecidableEq, Repr

/-- The engine's `Action` interface (`human-interactor.ts`).  `act` is a
string because plans arrive as untrusted JSON and the dispatch is a runtime
string switch with a default arm. -/
structure Action where
  act : String
  target : Option String := none
  text : Option String := none
  /-- Source field name: `to` (a reserved token in Lean). -/
  toAnchor : Option String := none
  perChar : Option Bool := none
  confirm : Option Bool := none
  timeout : Option Nat := none
deriving DecidableEq, Repr

/-- The shared planning contract `AutomationAction` (`shared/automation.ts`):
its wait field is named `waitMs`, and it has no `timeout` field. -/
structure AutomationAction where
  act : String
  target : Option String := none
  /-- Source field name: `to` (a reserved token in Lean). -/
  toAnchor : Option String := none
  text : Option String := none
  perChar : Option Bool := none
  confirm : Option Bool := none
  waitMs : Option Nat := none
deriving DecidableEq, Repr

/-- `content.ts` hands each plan step object to `HumanInteractor.executeAction`
unchanged.  The engine then reads the properties of its own `Action`
interface; a planner-produced step carries no `timeout` property (its wait
field is `waitMs`), so that read yields `undefined`, i.e. `none`. -/
def Action.ofPlan (p : AutomationAction) : Action :=
  { act := p.act, target := p.target, text := p.text, toAnchor := p.toAnchor,
    perChar := p.perChar, confirm := p.confirm, timeout := none }

structure ActionResult where
  success : Bool
  message : String
  element : Option Elem := none
  error : Option String := none
deriving DecidableEq, Repr

/-- Every observable side effect of the engine.  `submitForm` represents a
direct `form.submit()` call: it is expressible in the effect language but,
as proved below, never emitted.  `pacing` is the fixed 100ms inter-step
`setTimeout` of the plan loop; `resolverQuery` marks a call into
`ElementResolver.findElement`. -/
inductive Effect where
  | keyEvent (kind : String) (target : Elem) (key : String)
  | inputEvent (target : Elem)
  | changeEvent (target : Elem)
  | mouseEvent (kind : String) (target : Elem)
  | setValue (target : Elem) (newValue : String)
  | focusCall (target : Elem)
  | scrollIntoView (target : Elem) (block : String)
  | scrollSettle
  | delayMs (ms : Nat)
  | randomDelay (minMs maxMs : Nat)
  | pacing
  | resolverQuery (target : String)
  | submitForm (target : Elem)
deriving DecidableEq, Repr

def Effect.isSubmit : Effect → Bool
  | .submitForm _ => true
  | _ => false

/-- The effects the sensitive-field claim is about: keyboard, `input` and
`change` event dispatches and value assignments.  (Deliberately *not*
focus or scroll: target resolution itself may scroll a not-yet-visible
best match into view inside `ElementResolver.findElement`, before the
engine's gate ever runs, and that resolver-internal effect is outside
this trace — see `Env.resolve`.) -/
def Effect.isTypingOrValueWrite : Effect → Bool
  | .keyEvent _ _ _ => true
  | .inputEvent _ => true
  | .changeEvent _ => true
  | .setValue _ _ => true
  | _ => false

/-- Browser-provided surroundings of one `executeAction` call: the resolver
(treated as an oracle, per the repository's own abstraction boundary), the
focused element before and after a Tab dispatch, whether a native `focus()`
call lands (`document.activeElement === element` afterwards), label
association lookup, and `document.body`.

`resolve` returns only the match: the resolver's *internal* DOM effects —
notably the `scrollIntoView` it performs on a not-yet-visible best match
during polling — are not recorded in the engine's effect trace.  Theorems
about that trace therefore must not (and here do not) assert the absence
of scrolls or other resolver-side effects; they speak only to what the
engine itself dispatches. -/
structure Env where
  resolve : String → ResolveOpts → Option EMatch
  activeElement : Option Elem
  activeAfterTab : Option Elem
  focusTakes : Elem → Bool
  labelsFor : Elem → List Elem
  body : Elem

/-- Mutable fields of the `HumanInteractor` instance. -/
structure EngineState where
  lastFocusedElement : Option Elem := none
  history : List (Action × ActionResult) := []
deriving DecidableEq, Repr

/-! ## Engine helper predicates (from `human-interactor.ts`) -/

def sensitiveTypes : List String :=
  ["password", "credit-card-number", "cc-number", "cc-exp", "cc-csc"]

def paymentFields : List String :=
  ["cc-name", "cc-number", "cc-exp", "cc-csc", "cc-type"]

/-- `HumanInteractor.isSensitiveField`.  Mirrors the early return
`if (!('type' in element)) return false`: an element without a `type`
property is never considered sensitive, whatever its `autocomplete` says. -/
def isSensitiveField (e : Elem) : Bool :=
  match e.typeProp with
  | none => false
  | some t =>
    let ty := jsToLower t
    if sensitiveTypes.contains ty then true
    else
      match e.autocomplete with
      | none => false
      | some ac => paymentFields.any (fun f => jsIncludes (jsToLower ac) f)

/-- `HumanInteractor.canReceiveFocus`. -/
def canReceiveFocus (e : Elem) : Bool :=
  ["input", "textarea", "select", "button", "a"].contains (jsToLower e.tagName)
    || e.hasTabindex || e.hasContenteditable

/-- `HumanInteractor.isConfirmedAction`: the source always returns `true`
("For now, assume all actions are confirmed"). -/
def isConfirmedAction (_e : Elem) : Bool := true

/-- `HumanInteractor.getOptimalClickTarget`: inputs prefer their first
associated label. -/
def getOptimalClickTarget (env : Env) (e : Elem) : Elem :=
  if jsToLower e.tagName = "input" then
    match env.labelsFor e with
    | l :: _ => l
    | [] => e
  else e

/-! ## Typing effect sequences (`typeCharByChar` / `typeWordByWord`)

`cur` tracks the element's current value; typing always starts from the
empty string because `typeText` clears the value first.  Value writes are
emitted only when the element has a `value` property, exactly like the
`'value' in element` guards in the source. -/

def typeCharSteps (e : Elem) (cur : String) : List Char → List Effect
  | [] => [Effect.changeEvent e]
  | c :: rest =>
    let newVal := cur.push c
    [Effect.keyEvent "keydown" e (String.singleton c),
     Effect.keyEvent "keypress" e (String.singleton c)]
      ++ (if e.hasValueProp then [Effect.setValue e newVal] else [])
      ++ [Effect.inputEvent e,
          Effect.keyEvent "keyup" e (String.singleton c),
          Effect.randomDelay 15 40]
      ++ typeCharSteps e newVal rest

/-- One word of `typeWordByWord`: per-character value appends with a 5-15ms
delay each; returns the value reached. -/
def typeWordChars (e : Elem) (cur : String) : List Char → String × List Effect
  | [] => (cur, [])
  | c :: rest =>
    let newVal := cur.push c
    let tail := typeWordChars e newVal rest
    (tail.1,
      (if e.hasValueProp then [Effect.setValue e newVal] else [])
        ++ [Effect.randomDelay 5 15] ++ tail.2)

/-- The word loop of `typeWordByWord`: a space is appended before the
per-word `input` event for every word but the last, each word ends with a
50-150ms pause, and a single `change` event closes the whole sequence. -/
def typeWords (e : Elem) (cur : String) : List String → List Effect
  | [] => [Effect.changeEvent e]
  | [w] =>
    let step := typeWordChars e cur w.data
    step.2 ++ [Effect.inputEvent e, Effect.randomDelay 50 150, Effect.changeEvent e]
  | w :: w2 :: ws =>
    let step := typeWordChars e cur w.data
    let withSpace := step.1.push ' '
    step.2
      ++ (if e.hasValueProp then [Effect.setValue e withSpace] else [])
      ++ [Effect.inputEvent e, Effect.randomDelay 50 150]
      ++ typeWords e withSpace (w2 :: ws)

/-! ## The seven action handlers -/

/-- `HumanInteractor.findElement` (the `find` action). -/
def findAction (env : Env) (st : EngineState) (a : Action) :
    ActionResult × EngineState × List Effect :=
  if jsTruthy a.target = false then
    ({ success := false, message := "No target specified for find action" }, st, [])
  else
    let t := a.target.getD ""
    match env.resolve t { typeHint := none, timeout := some (jsOrNat a.timeout 5000) } with
    | some m =>
      ({ success := true,
         message := "Found element: " ++ m.reason ++ " (confidence: " ++ m.confidence ++ ")",
         element := some m.element },
       { st with lastFocusedElement := some m.element },
       [Effect.resolverQuery t])
    | none =>
      ({ success := false,
         message := "Could not find element matching \"" ++ t ++ "\"",
         error := some "Element not found" }, st, [Effect.resolverQuery t])

/-- `HumanInteractor.scrollToElement`. -/
def scrollAction (env : Env) (st : EngineState) (a : Action) :
    ActionResult × EngineState × List Effect :=
  if jsTruthy a.target then
    let t := a.target.getD ""
    match env.resolve t {} with
    | none =>
      ({ success := false,
         message := "Could not find element \"" ++ t ++ "\" to scroll to" }, st,
       [Effect.resolverQuery t])
    | some m =>
      let block := if a.toAnchor = some "top" then "start"
                   else if a.toAnchor = some "bottom" then "end" else "center"
      ({ success := true,
         message := "Scrolled to element (" ++ jsOrStr a.toAnchor "center" ++ ")",
         element := some m.element }, st,
       [Effect.resolverQuery t, Effect.scrollIntoView m.element block, Effect.scrollSettle])
  else
    match st.lastFocusedElement with
    | none => ({ success := false, message := "No element to scroll to" }, st, [])
    | some e =>
      let block := if a.toAnchor = some "top" then "start"
                   else if a.toAnchor = some "bottom" then "end" else "center"
      ({ success := true,
         message := "Scrolled to element (" ++ jsOrStr a.toAnchor "center" ++ ")",
         element := some e }, st,
       [Effect.scrollIntoView e block, Effect.scrollSettle])

/-- `HumanInteractor.focusElement`. -/
def focusAction (env : Env) (st : EngineState) (a : Action) :
    ActionResult × EngineState × List Effect :=
  let resolved : Option Elem ⊕ (ActionResult × EngineState × List Effect) :=
    if jsTruthy a.target then
      let t := a.target.getD ""
      match env.resolve t {} with
      | none =>
        Sum.inr ({ success := false,
                   message := "Could not find element \"" ++ t ++ "\" to focus" }, st,
                 [Effect.resolverQuery t])
      | some m => Sum.inl (some m.element)
    else Sum.inl st.lastFocusedElement
  match resolved with
  | Sum.inr out => out
  | Sum.inl none => ({ success := false, message := "No element to focus" }, st,
      if jsTruthy a.target then [Effect.resolverQuery (a.target.getD "")] else [])
  | Sum.inl (some e) =>
    let pre := if jsTruthy a.target then [Effect.resolverQuery (a.target.getD "")] else []
    if canReceiveFocus e = false then
      ({ success := false, message := "Element cannot receive focus" }, st, pre)
    else if env.focusTakes e then
      ({ success := true, message := "Element focused successfully", element := some e },
       { st with lastFocusedElement := some e }, pre ++ [Effect.focusCall e])
    else
      ({ success := false, message := "Failed to focus element" }, st,
       pre ++ [Effect.focusCall e])

/-- `HumanInteractor.typeText`.  The sensitive-field gate sits after target
resolution and before any focus, value clear or event dispatch. -/
def typeTextAction (env : Env) (st : EngineState) (a : Action) :
    ActionResult × EngineState × List Effect :=
  if jsTruthy a.text = false then
    ({ success := false, message := "No text specified for type action" }, st, [])
  else
    let text := a.text.getD ""
    let resolved : Option Elem ⊕ (ActionResult × EngineState × List Effect) :=
      if jsTruthy a.target then
        let t := a.target.getD ""
        match env.resolve t { typeHint := some "input" } with
        | none =>
          Sum.inr ({ success := false,
                     message := "Could not find input element \"" ++ t ++ "\"" }, st,
                   [Effect.resolverQuery t])
        | some m => Sum.inl (some m.element)
      else Sum.inl st.lastFocusedElement
    match resolved with
    | Sum.inr out => out
    | Sum.inl none => ({ success := false, message := "No element to type into" }, st,
        if jsTruthy a.target then [Effect.resolverQuery (a.target.getD "")] else [])
    | Sum.inl (some e) =>
      let pre := if jsTruthy a.target then [Effect.resolverQuery (a.target.getD "")] else []
      if isSensitiveField e then
        ({ success := false,
           message := "Cannot type into password or payment fields for security reasons",
           error := some "Sensitive field restriction" }, st, pre)
      else
        let clear := if e.hasValueProp then [Effect.setValue e ""] else []
        let typing := if jsBool a.perChar then typeCharSteps e "" text.data
                      else typeWords e "" (jsSplitSpace text)
        ({ success := true,
           message := "Typed \"" ++ text ++ "\" into element",
           element := some e }, st,
         pre ++ [Effect.focusCall e] ++ clear ++ typing)

/-- `HumanInteractor.clickElement`. -/
def clickAction (env : Env) (st : EngineState) (a : Action) :
    ActionResult × EngineState × List Effect :=
  let resolved : Option Elem ⊕ (ActionResult × EngineState × List Effect) :=
    if jsTruthy a.target then
      let t := a.target.getD ""
      match env.resolve t { typeHint := some "button" } with
      | none =>
        Sum.inr ({ success := false,
                   message := "Could not find clickable element \"" ++ t ++ "\"" }, st,
                 [Effect.resolverQuery t])
      | some m => Sum.inl (some m.element)
    else Sum.inl st.lastFocusedElement
  match resolved with
  | Sum.inr out => out
  | Sum.inl none => ({ success := false, message := "No element to click" }, st,
      if jsTruthy a.target then [Effect.resolverQuery (a.target.getD "")] else [])
  | Sum.inl (some e) =>
    let pre := if jsTruthy a.target then [Effect.resolverQuery (a.target.getD "")] else []
    if jsBool a.confirm && (isConfirmedAction e = false) then
      ({ success := false,
         message := "Destructive action requires explicit user confirmation",
         error := some "Confirmation required" }, st, pre)
    else
      let ct := getOptimalClickTarget env e
      ({ success := true, message := "Element clicked successfully", element := some ct },
       st,
       pre ++ [Effect.mouseEvent "mousedown" ct, Effect.randomDelay 50 100,
               Effect.mouseEvent "mouseup" ct, Effect.mouseEvent "click" ct])

/-- `HumanInteractor.pressTab`: key events go to `document.activeElement`
(falling back to `document.body`); after a 100ms wait the new active element
is adopted as `lastFocusedElement` when it exists and differs. -/
def tabAction (env : Env) (st : EngineState) (_a : Action) :
    ActionResult × EngineState × List Effect :=
  let keyTarget := env.activeElement.getD env.body
  let st2 :=
    match env.activeAfterTab with
    | some n => if env.activeElement ≠ some n
                then { st with lastFocusedElement := some n } else st
    | none => st
  ({ success := true, message := "Tab key pressed", element := env.activeAfterTab },
   st2,
   [Effect.keyEvent "keydown" keyTarget "Tab", Effect.keyEvent "keyup" keyTarget "Tab",
    Effect.delayMs 100])

/-- `HumanInteractor.waitFor`: delays `action.timeout || 1000` milliseconds.
Note the engine reads its own `timeout` field here, not the planner contract
field `waitMs`. -/
def waitAction (_env : Env) (st : EngineState) (a : Action) :
    ActionResult × EngineState × List Effect :=
  let t := jsOrNat a.timeout 1000
  ({ success := true, message := "Waited for " ++ toString t ++ "ms" }, st,
   [Effect.delayMs t])

/-- `HumanInteractor.executeAction`: the runtime string switch over `act`
with the defensive default arm, followed by the unconditional push onto the
interaction history.  The surrounding try/catch is unreachable in the model
because every handler returns normally. -/
def executeActionCore (env : Env) (st : EngineState) (a : Action) :
    ActionResult × EngineState × List Effect :=
  if a.act = "find" then findAction env st a
  else if a.act = "scroll" then scrollAction env st a
  else if a.act = "focus" then focusAction env st a
  else if a.act = "type" then typeTextAction env st a
  else if a.act = "click" then clickAction env st a
  else if a.act = "tab" then tabAction env st a
  else if a.act = "wait" then waitAction env st a
  else
    ({ success := false, message := "Unknown action: " ++ a.act,
       error := some "Invalid action type" }, st, [])

/-- `HumanInteractor.executeAction` proper: the switch above followed by
the unconditional interaction-history push. -/
def executeAction (env : Env) (st : EngineState) (a : Action) :
    ActionResult × EngineState × List Effect :=
  let out := executeActionCore env st a
  (out.1, { out.2.1 with history := out.2.1.history ++ [(a, out.1)] }, out.2.2)
/-! ## Plan execution (`executeActionPlan` in `content.ts`)

The loop runs the plan in order, records one `ExecutionStepResult` per
action, stops at the first failed result, marks every remaining action
`skipped`, and packages an `ExecutionSummary`.  `durationMs` (wall clock)
is not modelled.  The run additionally exposes the concatenated effect
trace (with the loop's fixed 100ms pacing `setTimeout` after each
successful step tagged `Effect.pacing`) and the list of actions actually
handed to `executeAction`. -/

inductive StepStatus where
  | success
  | skipped
  | failed
deriving DecidableEq, Repr

structure ExecutionStepResult where
  action : AutomationAction
  status : StepStatus
  message : Option String := none
deriving DecidableEq, Repr

/-- `ExecutionAbortReason` from `shared/automation.ts`. -/
inductive AbortReason where
  | userCancelled
  | resolverConfidenceLow
  | targetUnavailable
  | timeout
  | permissionDenied
  | unknown
deriving DecidableEq, Repr

structure ExecutionSummary where
  completed : Bool
  abortReason : Option AbortReason := none
  steps : List ExecutionStepResult
deriving DecidableEq, Repr

structure PlanRun where
  summary : ExecutionSummary
  finalState : EngineState
  trace : List Effect
  attempted : List AutomationAction
deriving DecidableEq, Repr

/-- The body of `executeActionPlan`'s for-loop plus the post-loop skipped
fill, fused into one recursion.  On success the step is recorded and a
100ms pacing delay follows (also after the final step — the `await` sits
inside the loop body); on failure the step is recorded with
`result.error ?? result.message`, `abortReason` is set to `Unknown`, and
all remaining actions are recorded as `skipped` without being attempted. -/
def runPlanAux (envs : Nat → Env) (idx : Nat) (st : EngineState) :
    List AutomationAction → PlanRun
  | [] => { summary := { completed := true, abortReason := none, steps := [] },
            finalState := st, trace := [], attempted := [] }
  | a :: rest =>
    let step := executeAction (envs idx) st (Action.ofPlan a)
    let r := step.1
    if r.success then
      let tail := runPlanAux envs (idx + 1) step.2.1 rest
      { summary := { completed := tail.summary.completed,
                     abortReason := tail.summary.abortReason,
                     steps := { action := a, status := StepStatus.success,
                                message := some r.message } :: tail.summary.steps },
        finalState := tail.finalState,
        trace := step.2.2 ++ Effect.pacing :: tail.trace,
        attempted := a :: tail.attempted }
    else
      { summary := { completed := false, abortReason := some AbortReason.unknown,
                     steps := { action := a, status := StepStatus.failed,
                                message := some (r.error.getD r.message) }
                       :: rest.map (fun b =>
                            { action := b, status := StepStatus.skipped, message := none }) },
        finalState := step.2.1,
        trace := step.2.2,
        attempted := [a] }

/-- `NebulaContentScript.executeActionPlan`. -/
def executeActionPlan (envs : Nat → Env) (st : EngineState)
    (plan : List AutomationAction) : PlanRun :=
  runPlanAux envs 0 st plan

/-! ## Element Resolver (`element-resolver.ts`)

Scores are rationals (`ℚ`), the exact-arithmetic stand-in for the
JavaScript floats; every weight and threshold in play is a small decimal.
The browser-measured ingredients — which elements a `querySelectorAll`
candidate scan returns, getBoundingClientRect geometry (reduced to the
centre-to-centre distance used by `scoreNearbyText`), computed-style
visibility and the document's label associations — enter the model as
fields of `RElem` / `DomSnapshot`, matching the repository's own design
note that DOM access sits behind an element-directory interface. -/

/-- Resolver-relevant view of a candidate element.  `attrs` is the
`getAttribute` view (presence plus raw value); `labelTexts` is the
`textContent` of each associated `<label>` (via `for=` lookup and the
ancestor walk); `labelledByText` is the `textContent` of the element the
`aria-labelledby` attribute references, `none` when the attribute is
absent/empty or the reference dangles; `nearbyTexts` pairs each document
text node passing the `textContent && parentElement` guard with its
browser-measured centre distance to this element; `visible` is the
`isElementVisible` outcome. -/
structure RElem where
  tagName : String
  attrs : List (String × String)
  labelTexts : List String
  labelledByText : Option String
  nearbyTexts : List (ℚ × String)
  visible : Bool
  pointerEventsNone : Bool
deriving DecidableEq, Repr

def getAttr (e : RElem) (name : String) : Option String :=
  (e.attrs.find? (fun p => p.1 = name)).map Prod.snd

def hasAttr (e : RElem) (name : String) : Bool := (getAttr e name).isSome

/-- The reflected `element.id` property. -/
def RElem.idProp (e : RElem) : String := (getAttr e "id").getD ""

/-- The reflected `element.className` property. -/
def RElem.classNameProp (e : RElem) : String := (getAttr e "class").getD ""

inductive Confidence where
  | high
  | medium
  | low
deriving DecidableEq, Repr

structure ScoringWeights where
  labelExact : ℚ
  labelContains : ℚ
  nameContains : ℚ
  idContains : ℚ
  roleBias : ℚ
  nearbyText : ℚ
deriving DecidableEq, Repr

def weights : ScoringWeights :=
  { labelExact := 3.0, labelContains := 2.0, nameContains := 1.5,
    idContains := 1.0, roleBias := 0.8, nearbyText := 0.6 }

structure ConfidenceThresholds where
  high : ℚ
  medium : ℚ
  low : ℚ
deriving DecidableEq, Repr

def thresholds : ConfidenceThresholds := { high := 4.0, medium := 2.5, low := 1.0 }

/-- `ElementResolver.getConfidence`. -/
def getConfidence (score : ℚ) : Confidence :=
  if thresholds.high ≤ score then Confidence.high
  else if thresholds.medium ≤ score then Confidence.medium
  else Confidence.low

/-- `ElementResolver.scoreLabelAssociation`. -/
def scoreLabelAssociation (e : RElem) (target : String) : ℚ :=
  let ariaScore :=
    match (getAttr e "aria-label").map jsToLower with
    | some al =>
      if al ≠ "" then
        (if al = target then weights.labelExact
         else if jsIncludes al target then weights.labelContains else 0)
      else 0
    | none => 0
  let labelScore := e.labelTexts.foldl (fun acc lt =>
    let t := jsTrim (jsToLower lt)
    acc + (if t = target then weights.labelExact
           else if jsIncludes t target then weights.labelContains else 0)) 0
  let labelledByScore :=
    match e.labelledByText with
    | some rt0 =>
      let rt := jsTrim (jsToLower rt0)
      if rt = target then weights.labelExact
      else if jsIncludes rt target then weights.labelContains else 0
    | none => 0
  ariaScore + labelScore + labelledByScore

def relevantAttrs : List String :=
  ["id", "name", "class", "title", "placeholder", "aria-label",
   "aria-labelledby", "aria-describedby", "alt", "data-testid",
   "data-cy", "data-test", "for"]

/-- `ElementResolver.getElementAttributes`: the relevant attributes with a
truthy (non-empty) value, lowercased. -/
def elementAttributes (e : RElem) : List (String × String) :=
  relevantAttrs.filterMap (fun k =>
    match getAttr e k with
    | some v => if v ≠ "" then some (k, jsToLower v) else none
    | none => none)

def lookupAttr (attrs : List (String × String)) (k : String) : Option String :=
  (attrs.find? (fun p => p.1 = k)).map Prod.snd

def jsStartsWith (s pre : String) : Bool := listStartsWith s.data pre.data

/-- `ElementResolver.scoreAttributes`. -/
def scoreAttributes (attrs : List (String × String)) (target : String) : ℚ :=
  let incl := fun (k : String) =>
    match lookupAttr attrs k with
    | some v => jsIncludes v target
    | none => false
  (if incl "name" then weights.nameContains else 0)
    + (if incl "placeholder" then weights.nameContains else 0)
    + (if incl "id" then weights.idContains else 0)
    + (if incl "class" then weights.idContains * 0.5 else 0)
    + attrs.foldl (fun acc kv =>
        if jsStartsWith kv.1 "data-" && jsIncludes kv.2 target then
          acc + weights.idContains * 0.7
        else acc) 0

/-- `ElementResolver.scoreNearbyText`: text nodes within 120px contribute
`nearbyText * max(0, 1 - distance/120)` when their trimmed lowercase text
contains the target. -/
def scoreNearbyText (e : RElem) (target : String) : ℚ :=
  e.nearbyTexts.foldl (fun acc dt =>
    if dt.1 ≤ 120 then
      let t := jsTrim (jsToLower dt.2)
      if jsIncludes t target then
        acc + weights.nearbyText * max 0 (1 - dt.1 / 120)
      else acc
    else acc) 0

def buttonTargets : List String :=
  ["save", "submit", "send", "continue", "next", "confirm", "ok"]

def inputTargets : List String :=
  ["email", "password", "name", "id", "phone", "address", "search"]

/-- `ElementResolver.scoreTypeBias`. -/
def scoreTypeBias (e : RElem) (target : String) : ℚ :=
  let tag := jsToLower e.tagName
  let ty := (getAttr e "type").map jsToLower
  let role := (getAttr e "role").map jsToLower
  let isButtonTarget := buttonTargets.any (fun bt => jsIncludes target bt)
  let isInputTarget := inputTargets.any (fun it => jsIncludes target it)
  (if isButtonTarget && (tag = "button" || ty = some "submit" || role = some "button")
   then weights.roleBias else 0)
    + (if isInputTarget && (tag = "input" || tag = "textarea" || role = some "textbox")
       then weights.roleBias else 0)

/-- `ElementResolver.isElementInteractable`. -/
def isElementInteractable (e : RElem) : Bool :=
  if hasAttr e "disabled" then false
  else if e.pointerEventsNone then false
  else e.visible

/-- `ElementResolver.scoreElement`: the four signal groups summed, halved
when the element is not interactable. -/
def scoreElement (e : RElem) (target : String) : ℚ :=
  let base := scoreLabelAssociation e target
    + scoreAttributes (elementAttributes e) target
    + scoreNearbyText e target
    + scoreTypeBias e target
  if isElementInteractable e then base else base * 0.5

def joinComma : List String → String
  | [] => ""
  | [s] => s
  | s :: rest => s ++ ", " ++ joinComma rest

/-- `ElementResolver.getMatchReason` (diagnostic only). -/
def getMatchReason (e : RElem) (target : String) : String :=
  let ariaHit :=
    match (getAttr e "aria-label").map jsToLower with
    | some al => jsIncludes al target
    | none => false
  let labelHit := e.labelTexts.any (fun lt => jsIncludes (jsToLower lt) target)
  let nameHit :=
    match (getAttr e "name").map jsToLower with
    | some v => jsIncludes v target
    | none => false
  let placeholderHit :=
    match (getAttr e "placeholder").map jsToLower with
    | some v => jsIncludes v target
    | none => false
  let reasons :=
    (if ariaHit then ["aria-label match"] else [])
      ++ (if labelHit then ["associated label"] else [])
      ++ (if nameHit then ["name attribute"] else [])
      ++ (if placeholderHit then ["placeholder text"] else [])
  if reasons.isEmpty then "nearby text or element type" else joinComma reasons

def joinDot : List String → String
  | [] => ""
  | [s] => s
  | s :: rest => s ++ "." ++ joinDot rest

/-- `ElementResolver.generateSelector` (diagnostic only): tag, `#id`, up to
two non-framework classes, and the `type` attribute. -/
def generateSelector (e : RElem) : String :=
  let tagPart := jsToLower e.tagName
  let idPart := if e.idProp ≠ "" then "#" ++ e.idProp else ""
  let classPart :=
    if e.classNameProp ≠ "" then
      let classes := ((jsSplitSpace e.classNameProp).filter (fun cls =>
        cls.length > 0 && !(jsStartsWith cls "ng-" || jsStartsWith cls "_"
          || jsStartsWith cls "x-"))).take 2
      if classes.isEmpty then "" else "." ++ joinDot classes
    else ""
  let typePart :=
    match getAttr e "type" with
    | some t => if t ≠ "" then "[type=\"" ++ t ++ "\"]" else ""
    | none => ""
  tagPart ++ idPart ++ classPart ++ typePart

structure RMatch where
  element : RElem
  score : ℚ
  confidence : Confidence
  reason : String
  selector : String
deriving DecidableEq, Repr

/-- Stable insertion into a descending-by-score list (the model of the
stable JavaScript `sort((a, b) => b.score - a.score)`). -/
def insertByScore (m : RMatch) : List RMatch → List RMatch
  | [] => [m]
  | x :: xs => if x.score ≤ m.score then m :: x :: xs else x :: insertByScore m xs

def sortByScoreDesc : List RMatch → List RMatch
  | [] => []
  | x :: xs => insertByScore x (sortByScoreDesc xs)

/-- `ElementResolver.scoreAllElements`: candidates with a strictly positive
score become matches (confidence, reason and selector attached), sorted by
descending score. -/
def scoreAllElements (target : String) (cands : List RElem) : List RMatch :=
  sortByScoreDesc (cands.filterMap (fun e =>
    let s := scoreElement e target
    if 0 < s then
      some { element := e, score := s, confidence := getConfidence s,
             reason := getMatchReason e target, selector := generateSelector e }
    else none))

/-- One iteration of `findElement`'s polling loop: the candidate list the
`getRelevantElements` scan returns against the current DOM, and whether the
best match passes the visibility re-check performed after the
scroll-into-view attempt. -/
structure DomSnapshot where
  candidates : List RElem
  visibleAfterScroll : Bool
deriving DecidableEq, Repr

/-- The `while (Date.now() - startTime < timeout)` polling loop of
`ElementResolver.findElement`; the wall-clock timeout budget becomes the
number of snapshots still available, each iteration consuming one.  A best
match that is invisible (and stays so after scrolling) is skipped for this
iteration; a best match below the `low` threshold never returns. -/
def findElementLoop (target : String) (requireVisible : Bool) :
    List DomSnapshot → Option RMatch
  | [] => none
  | snap :: rest =>
    match scoreAllElements target snap.candidates with
    | [] => findElementLoop target requireVisible rest
    | best :: _ =>
      if requireVisible && !best.element.visible then
        if !snap.visibleAfterScroll then findElementLoop target requireVisible rest
        else if thresholds.low ≤ best.score then some best
        else findElementLoop target requireVisible rest
      else if thresholds.low ≤ best.score then some best
      else findElementLoop target requireVisible rest

/-- `ElementResolver.findElement`: the target is lowercased and trimmed,
then the polling loop runs (`requireVisible` defaults to `true`). -/
def findElement (target : String) (requireVisible : Bool)
    (snaps : List DomSnapshot) : Option RMatch :=
  findElementLoop (jsTrim (jsToLower target)) requireVisible snaps

/-- `ElementResolver.findMultipleElements`: one scoring pass, matches below
the `low` threshold filtered out, the first `maxResults` kept. -/
def findMultipleElements (target : String) (maxResults : Nat)
    (cands : List RElem) : List RMatch :=
  ((scoreAllElements (jsTrim (jsToLower target)) cands).filter
    (fun m => thresholds.low ≤ m.score)).take maxResults

/-! ## Concrete fixtures used by witnesses and counterexamples -/

def bodyElem : Elem :=
  { tagName := "BODY", typeProp := none, autocomplete := none, hasValueProp := false,
    value := "", id := "", hasTabindex := false, hasContenteditable := false }

/-- Environment in which the resolver finds nothing and no element is focused. -/
def envTriv : Env :=
  { resolve := fun _ _ => none, activeElement := none, activeAfterTab := none,
    focusTakes := fun _ => false, labelsFor := fun _ => [], body := bodyElem }

def st0 : EngineState := {}

/-- A password input: `type` property `"password"`. -/
def pwElem : Elem :=
  { tagName := "INPUT", typeProp := some "password", autocomplete := none,
    hasValueProp := true, value := "", id := "pw", hasTabindex := false,
    hasContenteditable := false }

def pwMatch : EMatch := { element := pwElem, reason := "name attribute", confidence := "high" }

/-- Environment whose resolver always returns the password input. -/
def envPw : Env := { envTriv with resolve := fun _ _ => some pwMatch }

/-- A contenteditable `div` carrying `autocomplete="cc-number"`: it has no
JavaScript `type` property, so `isSensitiveField` returns `false` for it. -/
def ccDiv : Elem :=
  { tagName := "DIV", typeProp := none, autocomplete := some "cc-number",
    hasValueProp := false, value := "", id := "", hasTabindex := false,
    hasContenteditable := true }

def ccMatch : EMatch :=
  { element := ccDiv, reason := "nearby text or element type", confidence := "low" }

/-- Environment whose resolver resolves to the credit-card contenteditable div. -/
def envCC : Env := { envTriv with resolve := fun _ _ => some ccMatch }

/-! ## C7: unknown action verbs -/

/-- C7: for every action whose `act` is not one of the seven known verbs,
`executeAction` returns (without throwing) a failed `ActionResult` with
message `"Unknown action: <act>"` and error `"Invalid action type"`,
appends that result to the interaction history, and performs no effect. -/
theorem executeAction_unknown_verb (env : Env) (st : EngineState) (a : Action)
    (h : a.act ∉ (["find", "scroll", "focus", "type", "click", "tab", "wait"] : List String)) :
    (executeAction env st a).1 =
      { success := false, message := "Unknown action: " ++ a.act,
        element := none, error := some "Invalid action type" }
    ∧ (executeAction env st a).2.1.history
        = st.history ++ [(a, (executeAction env st a).1)]
    ∧ (executeAction env st a).2.1.lastFocusedElement = st.lastFocusedElement
    ∧ (executeAction env st a).2.2 = [] := by
  simp only [List.mem_cons, List.mem_singleton, not_or] at h
  obtain ⟨h1, h2, h3, h4, h5, h6, h7⟩ := h
  simp [executeAction, executeActionCore, h1, h2, h3, h4, h5, h6, h7]

/-- Witness for C7 at the concrete unknown verb `"hover"`. -/
theorem executeAction_unknown_verb_witness :
    (executeAction envTriv st0 { act := "hover" }).1 =
      { success := false, message := "Unknown action: " ++ ({ act := "hover" } : Action).act,
        element := none, error := some "Invalid action type" }
    ∧ (executeAction envTriv st0 { act := "hover" }).2.1.history
        = st0.history ++ [({ act := "hover" }, (executeAction envTriv st0 { act := "hover" }).1)]
    ∧ (executeAction envTriv st0 { act := "hover" }).2.1.lastFocusedElement
        = st0.lastFocusedElement
    ∧ (executeAction envTriv st0 { act := "hover" }).2.2 = [] :=
  executeAction_unknown_verb envTriv st0 { act := "hover" } (by decide)

/-! ## C10: the empty string as `text` of a `type` action -/

/-- C10: a `type` action whose `text` is the empty string is rejected by
the JavaScript truthiness check `if (!action.text)` exactly like an absent
`text`: `executeAction` fails with "No text specified for type action",
resolves no target, dispatches nothing, and leaves the engine focus state
unchanged. -/
theorem typeText_empty_string (env : Env) (st : EngineState) (a : Action)
    (hact : a.act = "type") (htext : a.text = some "") :
    (executeAction env st a).1 =
      { success := false, message := "No text specified for type action",
        element := none, error := none }
    ∧ (executeAction env st a).2.2 = []
    ∧ (executeAction env st a).2.1.lastFocusedElement = st.lastFocusedElement := by
  simp [executeAction, executeActionCore, hact, typeTextAction, htext, jsTruthy]

/-- Witness for C10 at a concrete empty-text `type` action. -/
theorem typeText_empty_string_witness :
    (executeAction envTriv st0 { act := "type", text := some "" }).1 =
      { success := false, message := "No text specified for type action",
        element := none, error := none }
    ∧ (executeAction envTriv st0 { act := "type", text := some "" }).2.2 = []
    ∧ (executeAction envTriv st0 { act := "type", text := some "" }).2.1.lastFocusedElement
        = st0.lastFocusedElement :=
  typeText_empty_string envTriv st0 { act := "type", text := some "" } rfl rfl

/-! ## C5: `wait` ignores the plan contract field `waitMs` -/

/-- A planner-produced wait step requesting 500ms, as the shared contract
`AutomationAction` and the Worker's JSON schema define it. -/
def waitStep : AutomationAction := { act := "wait", waitMs := some 500 }

/-- C5 failing input: executing the plan step `{act: "wait", waitMs: 500}`
delays 1000ms, not 500ms — `HumanInteractor.waitFor` reads
`action.timeout`, a property a planner step does not carry, so the default
applies and `waitMs` is ignored.  The result still reports success. -/
theorem wait_ignores_waitMs :
    waitStep.waitMs = some 500
    ∧ (executeAction envTriv st0 (Action.ofPlan waitStep)).2.2 = [Effect.delayMs 1000]
    ∧ (executeAction envTriv st0 (Action.ofPlan waitStep)).1.success = true
    ∧ (executeAction envTriv st0 (Action.ofPlan waitStep)).1.message = "Waited for 1000ms" := by
  decide

/-! ## C1: sensitive-field refusal -/

/-- C1 counterexample: the claim quantifies over every resolved target
whose `autocomplete` contains a cc-token, but `isSensitiveField` starts
with `if (!('type' in element)) return false`.  A contenteditable `div`
with `autocomplete="cc-number"` (a legitimate `input`-hint resolver
candidate, since the input selector includes `[contenteditable]`) has no
`type` property, so the gate is skipped: the `type` action succeeds and
dispatches keyboard events, contradicting the claimed refusal. -/
theorem typeText_autocomplete_gap :
    jsIncludes (jsToLower (ccDiv.autocomplete.getD "")) "cc-number" = true
    ∧ envCC.resolve "card number" { typeHint := some "input" } = some ccMatch
    ∧ ccMatch.element = ccDiv
    ∧ (executeAction envCC st0
        { act := "type", target := some "card number", text := some "4111",
          perChar := some true }).1.success = true
    ∧ ((executeAction envCC st0
        { act := "type", target := some "card number", text := some "4111",
          perChar := some true }).2.2.any (fun x =>
            match x with
            | Effect.keyEvent _ _ _ => true
            | _ => false)) = true := by
  decide

/-- C1 (amended): whenever the element selected by a `type` action (via
target resolution with the `input` hint, or the last-focused fallback)
satisfies `isSensitiveField` — which requires a JavaScript `type` property
and then either a sensitive `type` value or a cc-token in `autocomplete` —
`executeAction` returns success=false with the message "Cannot type into
password or payment fields for security reasons", dispatches no
keyboard/input/change event on the element, and leaves its value
unchanged (no value assignment appears in the trace).  The gate says
nothing about scrolling: resolving the target may already have scrolled
it into view inside `ElementResolver.findElement`. -/
theorem typeText_sensitive_refusal (env : Env) (st : EngineState) (a : Action) (e : Elem)
    (hact : a.act = "type")
    (htext : jsTruthy a.text = true)
    (hsel : (jsTruthy a.target = true
              ∧ (env.resolve (a.target.getD "") { typeHint := some "input" }).map
                  EMatch.element = some e)
          ∨ (jsTruthy a.target = false ∧ st.lastFocusedElement = some e))
    (hsens : isSensitiveField e = true) :
    (executeAction env st a).1 =
      { success := false,
        message := "Cannot type into password or payment fields for security reasons",
        element := none, error := some "Sensitive field restriction" }
    ∧ ((executeAction env st a).2.2.all (fun x => !x.isTypingOrValueWrite)) = true := by
  have htext2 : jsTruthy a.text ≠ false := by simp [htext]
  rcases hsel with ⟨ht, hres⟩ | ⟨ht, hlast⟩
  · obtain ⟨m, hm, hme⟩ := Option.map_eq_some'.mp hres
    simp [executeAction, executeActionCore, hact, typeTextAction, htext2, ht, hm, hme, hsens,
      Effect.isTypingOrValueWrite]
  · simp [executeAction, executeActionCore, hact, typeTextAction, htext2, ht, hlast, hsens,
      Effect.isTypingOrValueWrite]

/-- Witness for C1 at a concrete password input resolved as the target. -/
theorem typeText_sensitive_refusal_witness :
    (executeAction envPw st0 { act := "type", target := some "password", text := some "secret" }).1 =
      { success := false,
        message := "Cannot type into password or payment fields for security reasons",
        element := none, error := some "Sensitive field restriction" }
    ∧ ((executeAction envPw st0
        { act := "type", target := some "password", text := some "secret" }).2.2.all
          (fun x => !x.isTypingOrValueWrite)) = true :=
  typeText_sensitive_refusal envPw st0
    { act := "type", target := some "password", text := some "secret" } pwElem
    (by decide) (by decide) (Or.inl ⟨by decide, by decide⟩) (by decide)

/-! ## C9: write discipline of `lastFocusedElement` -/

theorem bool_not_true {b : Bool} (h : ¬b = true) : b = false := by
  cases b
  · rfl
  · exact absurd rfl h

theorem scrollAction_preserves_state (env : Env) (st : EngineState) (a : Action) :
    (scrollAction env st a).2.1 = st := by
  by_cases htg : jsTruthy a.target = true
  · cases hres : env.resolve (a.target.getD "") {} with
    | none => simp [scrollAction, htg, hres]
    | some m => simp [scrollAction, htg, hres]
  · cases hlf : st.lastFocusedElement with
    | none => simp [scrollAction, bool_not_true htg, hlf]
    | some e => simp [scrollAction, bool_not_true htg, hlf]

theorem typeTextAction_preserves_state (env : Env) (st : EngineState) (a : Action) :
    (typeTextAction env st a).2.1 = st := by
  by_cases ht : jsTruthy a.text = false
  · simp [typeTextAction, ht]
  · by_cases htg : jsTruthy a.target = true
    · cases hres : env.resolve (a.target.getD "") { typeHint := some "input" } with
      | none => simp [typeTextAction, ht, htg, hres]
      | some m =>
        cases hse : isSensitiveField m.element <;>
          simp [typeTextAction, ht, htg, hres, hse]
    · cases hlf : st.lastFocusedElement with
      | none => simp [typeTextAction, ht, bool_not_true htg, hlf]
      | some e =>
        cases hse : isSensitiveField e <;>
          simp [typeTextAction, ht, bool_not_true htg, hlf, hse]

theorem clickAction_preserves_state (env : Env) (st : EngineState) (a : Action) :
    (clickAction env st a).2.1 = st := by
  by_cases htg : jsTruthy a.target = true
  · cases hres : env.resolve (a.target.getD "") { typeHint := some "button" } with
    | none => simp [clickAction, htg, hres]
    | some m => simp [clickAction, htg, hres, isConfirmedAction]
  · cases hlf : st.lastFocusedElement with
    | none => simp [clickAction, bool_not_true htg, hlf]
    | some e => simp [clickAction, bool_not_true htg, hlf, isConfirmedAction]

theorem waitAction_preserves_state (env : Env) (st : EngineState) (a : Action) :
    (waitAction env st a).2.1 = st := rfl

theorem findAction_state_cases (env : Env) (st : EngineState) (a : Action) :
    (findAction env st a).2.1 = st ∨ (findAction env st a).1.success = true := by
  by_cases ht : jsTruthy a.target = false
  · exact Or.inl (by simp [findAction, ht])
  · cases hres : env.resolve (a.target.getD "")
      { typeHint := none, timeout := some (jsOrNat a.timeout 5000) } with
    | none => exact Or.inl (by simp [findAction, ht, hres])
    | some m => exact Or.inr (by simp [findAction, ht, hres])

theorem focusAction_state_cases (env : Env) (st : EngineState) (a : Action) :
    (focusAction env st a).2.1 = st ∨ (focusAction env st a).1.success = true := by
  by_cases htg : jsTruthy a.target = true
  · cases hres : env.resolve (a.target.getD "") {} with
    | none => exact Or.inl (by simp [focusAction, htg, hres])
    | some m =>
      cases hcr : canReceiveFocus m.element with
      | false => exact Or.inl (by simp [focusAction, htg, hres, hcr])
      | true =>
        cases hft : env.focusTakes m.element with
        | false => exact Or.inl (by simp [focusAction, htg, hres, hcr, hft])
        | true => exact Or.inr (by simp [focusAction, htg, hres, hcr, hft])
  · cases hlf : st.lastFocusedElement with
    | none => exact Or.inl (by simp [focusAction, bool_not_true htg, hlf])
    | some e =>
      cases hcr : canReceiveFocus e with
      | false => exact Or.inl (by simp [focusAction, bool_not_true htg, hlf, hcr])
      | true =>
        cases hft : env.focusTakes e with
        | false => exact Or.inl (by simp [focusAction, bool_not_true htg, hlf, hcr, hft])
        | true => exact Or.inr (by simp [focusAction, bool_not_true htg, hlf, hcr, hft])

theorem tabAction_state_cases (env : Env) (st : EngineState) (a : Action) :
    (tabAction env st a).2.1 = st
      ∨ ∃ n, env.activeAfterTab = some n ∧ env.activeElement ≠ some n := by
  cases hat : env.activeAfterTab with
  | none => exact Or.inl (by simp [tabAction, hat])
  | some n =>
    by_cases hne : env.activeElement ≠ some n
    · exact Or.inr ⟨n, rfl, hne⟩
    · exact Or.inl (by simp [tabAction, hat, not_not.mp hne])

/-- C9: `lastFocusedElement` — the engine's cross-action focus context — is
written only by a successful `find`, a successful `focus`, or a `tab` that
observes `document.activeElement` change to a different non-null element.
Contrapositively, `scroll`/`type`/`click`/`wait` actions, failed actions,
and unknown verbs leave it untouched. -/
theorem lastFocused_write_discipline (env : Env) (st : EngineState) (a : Action)
    (hch : (executeAction env st a).2.1.lastFocusedElement ≠ st.lastFocusedElement) :
    ((a.act = "find" ∨ a.act = "focus") ∧ (executeAction env st a).1.success = true)
    ∨ (a.act = "tab" ∧ ∃ n, env.activeAfterTab = some n ∧ env.activeElement ≠ some n) := by
  have hch2 : (executeActionCore env st a).2.1.lastFocusedElement ≠ st.lastFocusedElement := hch
  have hs : (executeAction env st a).1 = (executeActionCore env st a).1 := rfl
  rw [hs]
  by_cases h1 : a.act = "find"
  · have hcore : executeActionCore env st a = findAction env st a := by
      unfold executeActionCore; simp [h1]
    rw [hcore] at hch2 ⊢
    rcases findAction_state_cases env st a with h | h
    · exact absurd (congrArg EngineState.lastFocusedElement h) hch2
    · exact Or.inl ⟨Or.inl h1, h⟩
  by_cases h2 : a.act = "scroll"
  · have hcore : executeActionCore env st a = scrollAction env st a := by
      unfold executeActionCore; simp [h1, h2]
    rw [hcore] at hch2
    exact absurd (congrArg EngineState.lastFocusedElement
      (scrollAction_preserves_state env st a)) hch2
  by_cases h3 : a.act = "focus"
  · have hcore : executeActionCore env st a = focusAction env st a := by
      unfold executeActionCore; simp [h1, h2, h3]
    rw [hcore] at hch2 ⊢
    rcases focusAction_state_cases env st a with h | h
    · exact absurd (congrArg EngineState.lastFocusedElement h) hch2
    · exact Or.inl ⟨Or.inr h3, h⟩
  by_cases h4 : a.act = "type"
  · have hcore : executeActionCore env st a = typeTextAction env st a := by
      unfold executeActionCore; simp [h1, h2, h3, h4]
    rw [hcore] at hch2
    exact absurd (congrArg EngineState.lastFocusedElement
      (typeTextAction_preserves_state env st a)) hch2
  by_cases h5 : a.act = "click"
  · have hcore : executeActionCore env st a = clickAction env st a := by
      unfold executeActionCore; simp [h1, h2, h3, h4, h5]
    rw [hcore] at hch2
    exact absurd (congrArg EngineState.lastFocusedElement
      (clickAction_preserves_state env st a)) hch2
  by_cases h6 : a.act = "tab"
  · have hcore : executeActionCore env st a = tabAction env st a := by
      unfold executeActionCore; simp [h1, h2, h3, h4, h5, h6]
    rw [hcore] at hch2
    rcases tabAction_state_cases env st a with h | h
    · exact absurd (congrArg EngineState.lastFocusedElement h) hch2
    · exact Or.inr ⟨h6, h⟩
  by_cases h7 : a.act = "wait"
  · have hcore : executeActionCore env st a = waitAction env st a := by
      unfold executeActionCore; simp [h1, h2, h3, h4, h5, h6, h7]
    rw [hcore] at hch2
    exact absurd rfl hch2
  · have hcore : (executeActionCore env st a).2.1 = st := by
      unfold executeActionCore; simp [h1, h2, h3, h4, h5, h6, h7]
    exact absurd (congrArg EngineState.lastFocusedElement hcore) hch2

/-- Witness for C9: a successful `find` against the password-resolving
environment really does move `lastFocusedElement`. -/
theorem lastFocused_write_discipline_witness :
    ((({ act := "find", target := some "password" } : Action).act = "find"
        ∨ ({ act := "find", target := some "password" } : Action).act = "focus")
      ∧ (executeAction envPw st0 { act := "find", target := some "password" }).1.success = true)
    ∨ (({ act := "find", target := some "password" } : Action).act = "tab"
        ∧ ∃ n, envPw.activeAfterTab = some n ∧ envPw.activeElement ≠ some n) :=
  lastFocused_write_discipline envPw st0 { act := "find", target := some "password" }
    (by decide)

/-! ## Effect-trace cleanliness

Every effect an `executeAction` call emits is neither a `form.submit()`
call nor the plan loop's `pacing` marker (the latter is emitted only by
`runPlanAux` itself).  This single invariant feeds both the no-auto-submit
claim and the pacing-count claim. -/

def cleanEff (x : Effect) : Bool := !x.isSubmit && !(x == Effect.pacing)

theorem typeCharSteps_clean (e : Elem) :
    ∀ (l : List Char) (cur : String), (typeCharSteps e cur l).all cleanEff = true := by
  intro l
  induction l with
  | nil => intro cur; simp [typeCharSteps, cleanEff, Effect.isSubmit]
  | cons c rest ih =>
    intro cur
    cases hv : e.hasValueProp <;>
      simp [typeCharSteps, hv, ih, cleanEff, Effect.isSubmit]

theorem typeWordChars_clean (e : Elem) :
    ∀ (l : List Char) (cur : String), (typeWordChars e cur l).2.all cleanEff = true := by
  intro l
  induction l with
  | nil => intro cur; simp [typeWordChars]
  | cons c rest ih =>
    intro cur
    cases hv : e.hasValueProp <;>
      simp [typeWordChars, hv, ih, cleanEff, Effect.isSubmit]

theorem typeWords_clean (e : Elem) :
    ∀ (ws : List String) (cur : String), (typeWords e cur ws).all cleanEff = true := by
  intro ws
  induction ws with
  | nil => intro cur; simp [typeWords, cleanEff, Effect.isSubmit]
  | cons w ws2 ih =>
    intro cur
    cases ws2 with
    | nil =>
      simp [typeWords, typeWordChars_clean, cleanEff, Effect.isSubmit]
    | cons w2 ws3 =>
      cases hv : e.hasValueProp <;>
        simp [typeWords, hv, typeWordChars_clean, ih, cleanEff, Effect.isSubmit]

theorem findAction_trace_clean (env : Env) (st : EngineState) (a : Action) :
    ((findAction env st a).2.2).all cleanEff = true := by
  by_cases ht : jsTruthy a.target = false
  · simp [findAction, ht]
  · cases hres : env.resolve (a.target.getD "")
      { typeHint := none, timeout := some (jsOrNat a.timeout 5000) } with
    | none => simp [findAction, ht, hres, cleanEff, Effect.isSubmit]
    | some m => simp [findAction, ht, hres, cleanEff, Effect.isSubmit]

theorem scrollAction_trace_clean (env : Env) (st : EngineState) (a : Action) :
    ((scrollAction env st a).2.2).all cleanEff = true := by
  by_cases htg : jsTruthy a.target = true
  · cases hres : env.resolve (a.target.getD "") {} with
    | none => simp [scrollAction, htg, hres, cleanEff, Effect.isSubmit]
    | some m => simp [scrollAction, htg, hres, cleanEff, Effect.isSubmit]
  · cases hlf : st.lastFocusedElement with
    | none => simp [scrollAction, bool_not_true htg, hlf]
    | some e => simp [scrollAction, bool_not_true htg, hlf, cleanEff, Effect.isSubmit]

theorem focusAction_trace_clean (env : Env) (st : EngineState) (a : Action) :
    ((focusAction env st a).2.2).all cleanEff = true := by
  by_cases htg : jsTruthy a.target = true
  · cases hres : env.resolve (a.target.getD "") {} with
    | none => simp [focusAction, htg, hres, cleanEff, Effect.isSubmit]
    | some m =>
      cases hcr : canReceiveFocus m.element <;>
        cases hft : env.focusTakes m.element <;>
          simp [focusAction, htg, hres, hcr, hft, cleanEff, Effect.isSubmit]
  · cases hlf : st.lastFocusedElement with
    | none => simp [focusAction, bool_not_true htg, hlf]
    | some e =>
      cases hcr : canReceiveFocus e <;>
        cases hft : env.focusTakes e <;>
          simp [focusAction, bool_not_true htg, hlf, hcr, hft, cleanEff, Effect.isSubmit]

theorem typeTextAction_trace_clean (env : Env) (st : EngineState) (a : Action) :
    ((typeTextAction env st a).2.2).all cleanEff = true := by
  by_cases ht : jsTruthy a.text = false
  · simp [typeTextAction, ht]
  · by_cases htg : jsTruthy a.target = true
    · cases hres : env.resolve (a.target.getD "") { typeHint := some "input" } with
      | none => simp [typeTextAction, ht, htg, hres, cleanEff, Effect.isSubmit]
      | some m =>
        cases hse : isSensitiveField m.element <;>
          cases hv : m.element.hasValueProp <;>
            cases hpc : jsBool a.perChar <;>
              simp [typeTextAction, ht, htg, hres, hse, hv, hpc, cleanEff, Effect.isSubmit,
                typeCharSteps_clean, typeWords_clean]
    · cases hlf : st.lastFocusedElement with
      | none => simp [typeTextAction, ht, bool_not_true htg, hlf]
      | some e =>
        cases hse : isSensitiveField e <;>
          cases hv : e.hasValueProp <;>
            cases hpc : jsBool a.perChar <;>
              simp [typeTextAction, ht, bool_not_true htg, hlf, hse, hv, hpc, cleanEff,
                Effect.isSubmit, typeCharSteps_clean, typeWords_clean]

theorem clickAction_trace_clean (env : Env) (st : EngineState) (a : Action) :
    ((clickAction env st a).2.2).all cleanEff = true := by
  by_cases htg : jsTruthy a.target = true
  · cases hres : env.resolve (a.target.getD "") { typeHint := some "button" } with
    | none => simp [clickAction, htg, hres, cleanEff, Effect.isSubmit]
    | some m => simp [clickAction, htg, hres, isConfirmedAction, cleanEff, Effect.isSubmit]
  · cases hlf : st.lastFocusedElement with
    | none => simp [clickAction, bool_not_true htg, hlf]
    | some e =>
      simp [clickAction, bool_not_true htg, hlf, isConfirmedAction, cleanEff, Effect.isSubmit]

theorem tabAction_trace_clean (env : Env) (st : EngineState) (a : Action) :
    ((tabAction env st a).2.2).all cleanEff = true := by
  simp [tabAction, cleanEff, Effect.isSubmit]

theorem waitAction_trace_clean (env : Env) (st : EngineState) (a : Action) :
    ((waitAction env st a).2.2).all cleanEff = true := by
  simp [waitAction, cleanEff, Effect.isSubmit]

theorem executeAction_trace_clean (env : Env) (st : EngineState) (a : Action) :
    ((executeAction env st a).2.2).all cleanEff = true := by
  have h : (executeAction env st a).2.2 = (executeActionCore env st a).2.2 := rfl
  rw [h]
  unfold executeActionCore
  by_cases h1 : a.act = "find"
  · simpa [h1] using findAction_trace_clean env st a
  by_cases h2 : a.act = "scroll"
  · simpa [h1, h2] using scrollAction_trace_clean env st a
  by_cases h3 : a.act = "focus"
  · simpa [h1, h2, h3] using focusAction_trace_clean env st a
  by_cases h4 : a.act = "type"
  · simpa [h1, h2, h3, h4] using typeTextAction_trace_clean env st a
  by_cases h5 : a.act = "click"
  · simpa [h1, h2, h3, h4, h5] using clickAction_trace_clean env st a
  by_cases h6 : a.act = "tab"
  · simpa [h1, h2, h3, h4, h5, h6] using tabAction_trace_clean env st a
  by_cases h7 : a.act = "wait"
  · simpa [h1, h2, h3, h4, h5, h6, h7] using waitAction_trace_clean env st a
  · simp [h1, h2, h3, h4, h5, h6, h7]

/-! ## C3: the engine never calls `submit()` -/

theorem clean_no_submit {l : List Effect} (h : l.all cleanEff = true) :
    l.all (fun x => !x.isSubmit) = true := by
  simp only [List.all_eq_true, cleanEff, Bool.and_eq_true] at *
  intro x hx
  exact (h x hx).1

theorem runPlanAux_trace_no_submit (envs : Nat → Env) :
    ∀ (plan : List AutomationAction) (idx : Nat) (st : EngineState),
      ((runPlanAux envs idx st plan).trace).all (fun x => !x.isSubmit) = true := by
  intro plan
  induction plan with
  | nil => intro idx st; simp [runPlanAux]
  | cons a rest ih =>
    intro idx st
    simp only [runPlanAux]
    cases hs : (executeAction (envs idx) st (Action.ofPlan a)).1.success with
    | true =>
      have hstep := clean_no_submit (executeAction_trace_clean (envs idx) st (Action.ofPlan a))
      have htail := ih (idx + 1) (executeAction (envs idx) st (Action.ofPlan a)).2.1
      simp only [hs, if_true]
      rw [List.all_append]
      simp only [List.all_cons, hstep, htail, Bool.true_and, Bool.and_true]
      simp [Effect.isSubmit]
    | false =>
      simp only [hs, Bool.false_eq_true, if_false]
      exact clean_no_submit (executeAction_trace_clean _ _ _)

/-- C3: no execution path calls a form's `submit` method.  Every effect in
the trace of any single `executeAction` call — and of any whole plan run —
is one of the benign kinds (synthesized events, value assignment, focus,
scroll, delays, resolver queries, pacing); `submitForm` never occurs. -/
theorem engine_never_submits :
    (∀ (env : Env) (st : EngineState) (a : Action),
      ((executeAction env st a).2.2).all (fun x => !x.isSubmit) = true)
    ∧ (∀ (envs : Nat → Env) (st : EngineState) (plan : List AutomationAction),
      ((executeActionPlan envs st plan).trace).all (fun x => !x.isSubmit) = true) :=
  ⟨fun env st a => clean_no_submit (executeAction_trace_clean env st a),
   fun envs st plan => runPlanAux_trace_no_submit envs plan 0 st⟩

/-! ## C8: pacing delays -/

def pacingCount (l : List Effect) : Nat := l.countP (fun x => x == Effect.pacing)

def successCount (steps : List ExecutionStepResult) : Nat :=
  steps.countP (fun s => s.status == StepStatus.success)

theorem clean_no_pacing {l : List Effect} (h : l.all cleanEff = true) :
    l.countP (fun x => x == Effect.pacing) = 0 := by
  rw [List.countP_eq_zero]
  simp only [List.all_eq_true, cleanEff, Bool.and_eq_true] at h
  intro x hx
  have := (h x hx).2
  simpa using this


theorem runPlanAux_pacing (envs : Nat → Env) :
    ∀ (plan : List AutomationAction) (idx : Nat) (st : EngineState),
      pacingCount (runPlanAux envs idx st plan).trace
        = successCount (runPlanAux envs idx st plan).summary.steps := by
  intro plan
  induction plan with
  | nil => intro idx st; simp [runPlanAux, pacingCount, successCount]
  | cons a rest ih =>
    intro idx st
    simp only [runPlanAux]
    cases hs : (executeAction (envs idx) st (Action.ofPlan a)).1.success with
    | true =>
      have h1 : List.countP (fun x => x == Effect.pacing)
          (executeAction (envs idx) st (Action.ofPlan a)).2.2 = 0 :=
        clean_no_pacing (executeAction_trace_clean _ _ _)
      have htail := ih (idx + 1) (executeAction (envs idx) st (Action.ofPlan a)).2.1
      simp only [pacingCount, successCount] at htail
      simp only [hs, if_true, pacingCount, successCount, List.countP_append,
        List.countP_cons]
      rw [h1, htail]
      simp
    | false =>
      have h1 : List.countP (fun x => x == Effect.pacing)
          (executeAction (envs idx) st (Action.ofPlan a)).2.2 = 0 :=
        clean_no_pacing (executeAction_trace_clean _ _ _)
      simp only [hs, Bool.false_eq_true, if_false, pacingCount, successCount,
        List.countP_cons, List.countP_map]
      rw [h1]
      have h2 : List.countP ((fun s => s.status == StepStatus.success) ∘ (fun b =>
          ({ action := b, status := StepStatus.skipped, message := none } :
            ExecutionStepResult))) rest = 0 := by
        rw [List.countP_eq_zero]
        intro b hb
        simp
      rw [h2]
      simp

/-- C8 counterexample: a one-step plan whose single `wait` step succeeds
produces one pacing delay, not `N - 1 = 0` — the 100ms pacing `setTimeout`
sits inside the loop body and also runs after the final step. -/
theorem pacing_after_last_step :
    (executeActionPlan (fun _ => envTriv) st0 [{ act := "wait" }]).summary.completed = true
    ∧ pacingCount (executeActionPlan (fun _ => envTriv) st0 [{ act := "wait" }]).trace = 1
    ∧ ([({ act := "wait" } : AutomationAction)].length - 1 : Nat) = 0
    ∧ pacingCount (executeActionPlan (fun _ => envTriv) st0 [{ act := "wait" }]).trace
        ≠ [({ act := "wait" } : AutomationAction)].length - 1 := by
  decide

/-- C8 (amended): the plan loop emits exactly one 100ms pacing delay per
*successful* step — including the last one — and none after a failed step,
so the pacing count equals the number of steps recorded `success`. -/
theorem pacing_per_successful_step (envs : Nat → Env) (st : EngineState)
    (plan : List AutomationAction) :
    pacingCount (executeActionPlan envs st plan).trace
      = successCount (executeActionPlan envs st plan).summary.steps :=
  runPlanAux_pacing envs plan 0 st

/-! ## C2: abort-then-skip invariant -/

theorem runPlanAux_steps_length (envs : Nat → Env) :
    ∀ (plan : List AutomationAction) (idx : Nat) (st : EngineState),
      (runPlanAux envs idx st plan).summary.steps.length = plan.length := by
  intro plan
  induction plan with
  | nil => intro idx st; simp [runPlanAux]
  | cons a rest ih =>
    intro idx st
    simp only [runPlanAux]
    cases hs : (executeAction (envs idx) st (Action.ofPlan a)).1.success with
    | true => simp [hs, ih (idx + 1)]
    | false => simp [hs]

theorem runPlanAux_abort_skip (envs : Nat → Env) :
    ∀ (plan : List AutomationAction) (idx : Nat) (st : EngineState) (k : Nat)
      (r : ExecutionStepResult),
      (runPlanAux envs idx st plan).summary.steps[k]? = some r →
      r.status = StepStatus.failed →
      (runPlanAux envs idx st plan).summary.completed = false
      ∧ (∀ i, i < k → ∃ ri, (runPlanAux envs idx st plan).summary.steps[i]? = some ri
          ∧ ri.status = StepStatus.success)
      ∧ (∀ j rj, k < j → (runPlanAux envs idx st plan).summary.steps[j]? = some rj →
          rj.status = StepStatus.skipped)
      ∧ (runPlanAux envs idx st plan).attempted = plan.take (k + 1) := by
  intro plan
  induction plan with
  | nil =>
    intro idx st k r hk hf
    simp [runPlanAux] at hk
  | cons a rest ih =>
    intro idx st k r hk hf
    simp only [runPlanAux] at hk ⊢
    cases hs : (executeAction (envs idx) st (Action.ofPlan a)).1.success with
    | true =>
      simp only [hs, if_true] at hk ⊢
      cases k with
      | zero =>
        simp only [List.getElem?_cons_zero, Option.some_inj] at hk
        rw [← hk] at hf
        simp at hf
      | succ k2 =>
        simp only [List.getElem?_cons_succ] at hk
        obtain ⟨hc, hsucc, hskip, hatt⟩ :=
          ih (idx + 1) (executeAction (envs idx) st (Action.ofPlan a)).2.1 k2 r hk hf
        refine ⟨hc, ?_, ?_, ?_⟩
        · intro i hi
          cases i with
          | zero => exact ⟨_, List.getElem?_cons_zero, rfl⟩
          | succ i2 =>
            obtain ⟨ri, hri, hri2⟩ := hsucc i2 (Nat.lt_of_succ_lt_succ hi)
            exact ⟨ri, by simpa [List.getElem?_cons_succ] using hri, hri2⟩
        · intro j rj hj hjr
          cases j with
          | zero => exact absurd hj (Nat.not_lt_zero _).elim
          | succ j2 =>
            simp only [List.getElem?_cons_succ] at hjr
            exact hskip j2 rj (Nat.lt_of_succ_lt_succ hj) hjr
        · simp [List.take_succ_cons, hatt]
    | false =>
      simp only [hs, Bool.false_eq_true, if_false] at hk ⊢
      cases k with
      | zero =>
        refine ⟨by simp, ?_, ?_, by simp⟩
        · intro i hi
          exact absurd hi (Nat.not_lt_zero _)
        · intro j rj hj hjr
          cases j with
          | zero => exact absurd hj (Nat.lt_irrefl _)
          | succ j2 =>
            simp only [List.getElem?_cons_succ, List.getElem?_map] at hjr
            cases hb : rest[j2]? with
            | none => rw [hb] at hjr; simp at hjr
            | some b =>
              rw [hb] at hjr
              simp only [Option.map_some', Option.some_inj] at hjr
              rw [← hjr]
      | succ k2 =>
        simp only [List.getElem?_cons_succ, List.getElem?_map] at hk
        cases hb : rest[k2]? with
        | none => rw [hb] at hk; simp at hk
        | some b =>
          rw [hb] at hk
          simp only [Option.map_some', Option.some_inj] at hk
          rw [← hk] at hf
          simp at hf

/-- C2: if step `k` (0-indexed here) of a plan run is recorded `failed`,
then the run is not `completed`, the summary has exactly one
`ExecutionStepResult` per planned action, every earlier step is recorded
`success`, every later step is recorded `skipped`, and only the first
`k + 1` actions of the plan were ever handed to `executeAction`. -/
theorem plan_abort_then_skip (envs : Nat → Env) (st : EngineState)
    (plan : List AutomationAction) (k : Nat) (r : ExecutionStepResult)
    (hk : (executeActionPlan envs st plan).summary.steps[k]? = some r)
    (hf : r.status = StepStatus.failed) :
    (executeActionPlan envs st plan).summary.completed = false
    ∧ (executeActionPlan envs st plan).summary.steps.length = plan.length
    ∧ (∀ i, i < k → ∃ ri, (executeActionPlan envs st plan).summary.steps[i]? = some ri
        ∧ ri.status = StepStatus.success)
    ∧ (∀ j rj, k < j → (executeActionPlan envs st plan).summary.steps[j]? = some rj →
        rj.status = StepStatus.skipped)
    ∧ (executeActionPlan envs st plan).attempted = plan.take (k + 1) := by
  obtain ⟨hc, hsucc, hskip, hatt⟩ := runPlanAux_abort_skip envs plan 0 st k r hk hf
  exact ⟨hc, runPlanAux_steps_length envs plan 0 st, hsucc, hskip, hatt⟩

/-- A three-step plan whose second step (a `find` without a `target`)
fails: used to witness the abort-then-skip invariant. -/
def planAbort : List AutomationAction :=
  [{ act := "wait" }, { act := "find" }, { act := "click", target := some "save" }]

/-- Witness for C2 on `planAbort`: step 2 fails, step 1 succeeded, step 3
is skipped and never attempted. -/
theorem plan_abort_then_skip_witness :
    (executeActionPlan (fun _ => envTriv) st0 planAbort).summary.completed = false
    ∧ (executeActionPlan (fun _ => envTriv) st0 planAbort).summary.steps.length
        = planAbort.length
    ∧ (∀ i, i < 1 → ∃ ri,
        (executeActionPlan (fun _ => envTriv) st0 planAbort).summary.steps[i]? = some ri
        ∧ ri.status = StepStatus.success)
    ∧ (∀ j rj, 1 < j →
        (executeActionPlan (fun _ => envTriv) st0 planAbort).summary.steps[j]? = some rj →
        rj.status = StepStatus.skipped)
    ∧ (executeActionPlan (fun _ => envTriv) st0 planAbort).attempted = planAbort.take 2 :=
  plan_abort_then_skip (fun _ => envTriv) st0 planAbort 1
    { action := { act := "find" }, status := StepStatus.failed,
      message := some "No target specified for find action" }
    (by decide) (by decide)

/-! ## C6: abort reasons -/

/-- C6 counterexample: a plan aborting on the sensitive-field refusal — a
`PermissionDenied`-class failure per the taxonomy — is reported with
`abortReason = Unknown`: the loop stamps `ExecutionAbortReason.Unknown` on
every failure, never `PermissionDenied`. -/
theorem abortReason_not_permissionDenied :
    (executeActionPlan (fun _ => envPw) st0
      [{ act := "type", target := some "password", text := some "secret" }]).summary.steps.map
        (fun s => (s.status, s.message))
      = [(StepStatus.failed, some "Sensitive field restriction")]
    ∧ (executeActionPlan (fun _ => envPw) st0
        [{ act := "type", target := some "password", text := some "secret" }]).summary.abortReason
      = some AbortReason.unknown
    ∧ (some AbortReason.unknown : Option AbortReason) ≠ some AbortReason.permissionDenied := by
  decide

/-- C6 (amended): the plan loop's abort reason carries no taxonomy at all:
whenever a run aborts — whatever the class of the failure — the summary's
`abortReason` is `Unknown`, and a completed run carries none. -/
theorem plan_abortReason_always_unknown (envs : Nat → Env) (st : EngineState)
    (plan : List AutomationAction) :
    ((executeActionPlan envs st plan).summary.completed = false →
      (executeActionPlan envs st plan).summary.abortReason = some AbortReason.unknown)
    ∧ ((executeActionPlan envs st plan).summary.completed = true →
      (executeActionPlan envs st plan).summary.abortReason = none) := by
  have main : ∀ (p : List AutomationAction) (idx : Nat) (s : EngineState),
      ((runPlanAux envs idx s p).summary.completed = false →
        (runPlanAux envs idx s p).summary.abortReason = some AbortReason.unknown)
      ∧ ((runPlanAux envs idx s p).summary.completed = true →
        (runPlanAux envs idx s p).summary.abortReason = none) := by
    intro p
    induction p with
    | nil =>
      intro idx s
      simp [runPlanAux]
    | cons a rest ih =>
      intro idx s
      simp only [runPlanAux]
      cases hs : (executeAction (envs idx) s (Action.ofPlan a)).1.success with
      | true =>
        have h2 := ih (idx + 1) (executeAction (envs idx) s (Action.ofPlan a)).2.1
        simpa [hs] using h2
      | false => simp [hs]
  exact main plan 0 st

/-- Witness for C6 (amended) at the aborting password plan. -/
theorem plan_abortReason_always_unknown_witness :
    (executeActionPlan (fun _ => envPw) st0
      [{ act := "type", target := some "password", text := some "secret" }]).summary.abortReason
      = some AbortReason.unknown :=
  (plan_abortReason_always_unknown (fun _ => envPw) st0
    [{ act := "type", target := some "password", text := some "secret" }]).1 (by decide)

/-! ## C4: confidence tiering and the `low` threshold -/

/-- C4 counterexample: `getConfidence` has no band of its own below the
`low` threshold — it answers `low` for *every* score under 2.5, e.g. for
score `1/2`, where the claimed "low iff 1.0 ≤ score < 2.5" fails (such
scores do occur inside `scoreAllElements`, which attaches a confidence to
every strictly positive score before the threshold filter runs). -/
theorem getConfidence_below_low :
    getConfidence (1/2) = Confidence.low
    ∧ ¬((1 : ℚ) ≤ 1/2)
    ∧ ¬(getConfidence (1/2) = Confidence.low ↔ ((1 : ℚ) ≤ 1/2 ∧ (1/2 : ℚ) < 5/2)) := by
  have h : getConfidence (1/2) = Confidence.low := by
    unfold getConfidence
    have h1 : ¬(thresholds.high ≤ (1/2 : ℚ)) := by norm_num [thresholds]
    have h2 : ¬(thresholds.medium ≤ (1/2 : ℚ)) := by norm_num [thresholds]
    rw [if_neg h1, if_neg h2]
  refine ⟨h, by norm_num, fun hiff => ?_⟩
  have h2 := hiff.mp h
  norm_num at h2

theorem findElementLoop_min_score (target : String) (rv : Bool) :
    ∀ (snaps : List DomSnapshot) (m : RMatch),
      findElementLoop target rv snaps = some m → thresholds.low ≤ m.score := by
  intro snaps
  induction snaps with
  | nil => intro m h; simp [findElementLoop] at h
  | cons snap rest ih =>
    intro m h
    simp only [findElementLoop] at h
    cases hsc : scoreAllElements target snap.candidates with
    | nil =>
      rw [hsc] at h
      exact ih m h
    | cons best tailm =>
      rw [hsc] at h
      dsimp only at h
      by_cases h1 : (rv && !best.element.visible) = true
      · rw [if_pos h1] at h
        by_cases h2 : (!snap.visibleAfterScroll) = true
        · rw [if_pos h2] at h
          exact ih m h
        · rw [if_neg h2] at h
          by_cases h3 : thresholds.low ≤ best.score
          · rw [if_pos h3] at h
            rw [Option.some_inj] at h
            rw [← h]
            exact h3
          · rw [if_neg h3] at h
            exact ih m h
      · rw [if_neg h1] at h
        by_cases h3 : thresholds.low ≤ best.score
        · rw [if_pos h3] at h
          rw [Option.some_inj] at h
          rw [← h]
          exact h3
        · rw [if_neg h3] at h
          exact ih m h

/-- C4 (amended): `getConfidence` returns `high` iff `score >= 4.0`,
`medium` iff `2.5 <= score < 4.0`, and `low` iff `score < 2.5` (so on the
scores that can actually be returned — which are at least `1.0` — `low`
means `1.0 <= score < 2.5`); `findElement` never returns, and
`findMultipleElements` never includes, a match with score below `1.0`. -/
theorem confidence_tiering :
    (∀ s : ℚ,
      (getConfidence s = Confidence.high ↔ (4 : ℚ) ≤ s)
      ∧ (getConfidence s = Confidence.medium ↔ ((5/2 : ℚ) ≤ s ∧ s < 4))
      ∧ (getConfidence s = Confidence.low ↔ s < (5/2 : ℚ)))
    ∧ (∀ (target : String) (rv : Bool) (snaps : List DomSnapshot) (m : RMatch),
        findElement target rv snaps = some m → (1 : ℚ) ≤ m.score)
    ∧ (∀ (target : String) (n : Nat) (cands : List RElem) (m : RMatch),
        m ∈ findMultipleElements target n cands → (1 : ℚ) ≤ m.score) := by
  have hh : thresholds.high = 4 := by norm_num [thresholds]
  have hm : thresholds.medium = 5/2 := by norm_num [thresholds]
  have hl : thresholds.low = 1 := by norm_num [thresholds]
  refine ⟨fun s => ?_, fun target rv snaps m hfind => ?_, fun target n cands m hmem => ?_⟩
  · unfold getConfidence
    rw [hh, hm]
    by_cases h1 : (4 : ℚ) ≤ s
    · rw [if_pos h1]
      exact ⟨⟨fun _ => h1, fun _ => rfl⟩,
        ⟨fun h => absurd h (by simp), fun h => absurd h1 (by linarith [h.2])⟩,
        ⟨fun h => absurd h (by simp), fun h => absurd h1 (by linarith)⟩⟩
    · rw [if_neg h1]
      by_cases h2 : (5/2 : ℚ) ≤ s
      · rw [if_pos h2]
        exact ⟨⟨fun h => absurd h (by simp), fun h => absurd h h1⟩,
          ⟨fun _ => ⟨h2, not_le.mp h1⟩, fun _ => rfl⟩,
          ⟨fun h => absurd h (by simp), fun h => absurd h (not_lt.mpr h2)⟩⟩
      · rw [if_neg h2]
        exact ⟨⟨fun h => absurd h (by simp), fun h => absurd h h1⟩,
          ⟨fun h => absurd h (by simp), fun h => absurd h.1 h2⟩,
          ⟨fun _ => not_le.mp h2, fun _ => rfl⟩⟩
  · rw [← hl]
    exact findElementLoop_min_score (jsTrim (jsToLower target)) rv snaps m hfind
  · rw [← hl]
    have h1 : m ∈ (scoreAllElements (jsTrim (jsToLower target)) cands).filter
        (fun x => thresholds.low ≤ x.score) := List.take_subset n _ hmem
    have h2 := (List.mem_filter.mp h1).2
    simpa using h2

/-- A candidate whose only scoring signal is an `id` attribute containing
the target, worth exactly `idContains = 1.0`. -/
def eW : RElem :=
  { tagName := "div", attrs := [("id", "email")], labelTexts := [],
    labelledByText := none, nearbyTexts := [], visible := true,
    pointerEventsNone := false }

/-- The match `findMultipleElements "email" 3 [eW]` produces. -/
def mW : RMatch :=
  { element := eW, score := 1, confidence := Confidence.low,
    reason := "nearby text or element type", selector := "div#email" }

theorem scoreElement_eW : scoreElement eW "email" = 1 := by
  have e1 : elementAttributes eW = [("id", "email")] := by decide
  have e2 : getAttr eW "aria-label" = none := by decide
  have e3 : eW.labelTexts = [] := rfl
  have e4 : eW.labelledByText = none := rfl
  have e5 : eW.nearbyTexts = [] := rfl
  have e6 : lookupAttr [("id", "email")] "name" = none := by decide
  have e7 : lookupAttr [("id", "email")] "placeholder" = none := by decide
  have e8 : lookupAttr [("id", "email")] "id" = some "email" := by decide
  have e9 : lookupAttr [("id", "email")] "class" = none := by decide
  have e10 : jsIncludes "email" "email" = true := by decide
  have e11 : jsStartsWith "id" "data-" = false := by decide
  have e12 : buttonTargets.any (fun bt => jsIncludes "email" bt) = false := by decide
  have e13 : inputTargets.any (fun it => jsIncludes "email" it) = true := by decide
  have e14 : jsToLower eW.tagName = "div" := by decide
  have e15 : getAttr eW "type" = none := by decide
  have e16 : getAttr eW "role" = none := by decide
  have e17 : isElementInteractable eW = true := by decide
  unfold scoreElement scoreLabelAssociation scoreAttributes scoreNearbyText scoreTypeBias
  rw [e1]
  simp only [e2, e3, e4, e5, e6, e7, e8, e9, e10, e11, e12, e13, e14, e15, e16, e17]
  norm_num [weights, e11]
  decide

theorem findMultipleElements_eW : findMultipleElements "email" 3 [eW] = [mW] := by
  have hnorm : jsTrim (jsToLower "email") = "email" := by decide
  have hreason : getMatchReason eW "email" = "nearby text or element type" := by decide
  have hsel : generateSelector eW = "div#email" := by decide
  have hconf : getConfidence 1 = Confidence.low := by
    unfold getConfidence
    have h1 : ¬(thresholds.high ≤ (1 : ℚ)) := by norm_num [thresholds]
    have h2 : ¬(thresholds.medium ≤ (1 : ℚ)) := by norm_num [thresholds]
    rw [if_neg h1, if_neg h2]
  unfold findMultipleElements scoreAllElements
  rw [hnorm]
  simp only [List.filterMap_cons, List.filterMap_nil, scoreElement_eW, hreason, hsel, hconf]
  norm_num [sortByScoreDesc, insertByScore, thresholds, mW]

/-- Witness for C4: the concrete match `mW`, returned for target
`"email"`, is at or above the `low` threshold. -/
theorem confidence_tiering_witness : (1 : ℚ) ≤ mW.score :=
  confidence_tiering.2.2 "email" 3 [eW] mW
    (by rw [findMultipleElements_eW]; exact List.mem_singleton.mpr rfl)

end Nebula
